import Mathlib

/-!
Verification of the zombieclaw runtime process bridge.

This file gives a shallow embedding of the two core components of the
repository and proves the specification claims about them:

* `PiRpcProcess` (src/unnamed/part_006): the runtime process supervisor that
  frames the supervised process's stdout into newline-delimited JSON
  messages, correlates request/response pairs through a pending map, fails
  pending calls on timeout or process exit, and schedules restarts with a
  capped linear backoff.
* `PiPairingGuard` (src/src/server/piProviderConfig.ts): the pairing guard
  with a single-use 6-digit pairing code, hashed bearer tokens and
  per-client failed-attempt lockout.

JavaScript `Map` objects are modelled as association lists in insertion
order, `Set` objects as duplicate-free lists in insertion order, JSON
values as an inductive `Json` type, timestamps (`Date.now()`,
`toISOString()`) as natural/integer parameters, and the effectful pieces
(promise resolution/rejection, notification emission, timer scheduling,
stdin writes) as explicit effect lists returned next to the updated state.
-/

namespace ZombieClaw

/-! ### JavaScript `Map`, `Set` and string primitives -/

/-- `Map.get`: first binding of the key in insertion order. -/
def mapGet {α : Type} : List (String × α) → String → Option α
  | [], _ => none
  | p :: rest, k => if p.1 = k then some p.2 else mapGet rest k

/-- `Map.has`. -/
def mapHas {α : Type} : List (String × α) → String → Bool
  | [], _ => false
  | p :: rest, k => if p.1 = k then true else mapHas rest k

/-- `Map.set`: overwrite in place when the key is present, append otherwise.
Also models assignment of one key during a JavaScript object spread. -/
def mapSet {α : Type} (m : List (String × α)) (k : String) (v : α) : List (String × α) :=
  if mapHas m k then m.map (fun p => if p.1 = k then (k, v) else p) else m ++ [(k, v)]

/-- `Map.delete`. -/
def mapDelete {α : Type} : List (String × α) → String → List (String × α)
  | [], _ => []
  | p :: rest, k => if p.1 = k then mapDelete rest k else p :: mapDelete rest k

/-- `Set.has` for a set of strings. -/
def setHas : List String → String → Bool
  | [], _ => false
  | y :: rest, x => if y = x then true else setHas rest x

/-- `Set.add` for a set of strings. -/
def setAdd (s : List String) (x : String) : List String :=
  if setHas s x then s else s ++ [x]

/-- The whitespace characters stripped by JavaScript `String.prototype.trim`
(restricted to the ASCII range actually produced by the protocol). -/
def isJsWhitespace (c : Char) : Bool :=
  c = ' ' || c = '\t' || c = '\n' || c = '\r' || c = '\x0b' || c = '\x0c'

/-- `trim` on a character list: strip whitespace from both ends. -/
def trimChars (l : List Char) : List Char :=
  ((l.dropWhile isJsWhitespace).reverse.dropWhile isJsWhitespace).reverse

/-- JavaScript `String.prototype.trim`. -/
def jsTrim (s : String) : String := String.mk (trimChars s.data)

/-! ### JSON values -/

/-- A parsed JSON value (output of a successful `JSON.parse`).  Objects are
field lists in key order with distinct keys. -/
inductive Json where
  | null
  | bool (b : Bool)
  | num (n : Int)
  | str (s : String)
  | arr (elems : List Json)
  | obj (fields : List (String × Json))

/-- `asRecord` (both copies in the source): a value is a record when it is an
object, not `null` and not an array. -/
def asRecord : Json → Option (List (String × Json))
  | .obj fields => some fields
  | _ => none

/-- `typeof message.k === 'string' ? message.k : ''` -/
def strField (fields : List (String × Json)) (k : String) : String :=
  match mapGet fields k with
  | some (.str s) => s
  | _ => ""

/-! ### Supervisor state (`PiRpcProcess`) -/

inductive PiStatus where
  | starting
  | running
  | stopped
  | errored
deriving DecidableEq, Repr

/-- A `PendingRequest` minus its callbacks and timer handle (those are
modelled as effects keyed by the request id). -/
structure PendingEntry where
  id : String
  command : String
deriving DecidableEq, Repr

/-- The `health()` snapshot. ISO timestamps are modelled as `Option Nat`. -/
structure PiRuntimeHealth where
  status : PiStatus
  pid : Option Nat
  restartCount : Nat
  startedAt : Option Nat
  lastEventAt : Option Nat
  lastError : Option String
deriving DecidableEq, Repr

/-- The mutable fields of a `PiRpcProcess` instance.  `process` holds the pid
of the live child process when one exists; `restartTimer` records a pending
restart timer together with the delay it was scheduled with;
`startInFlight` models `startPromise !== null`. -/
structure SupState where
  process : Option Nat
  readBuffer : List Char
  pending : List (String × PendingEntry)
  requestCounter : Nat
  restartTimer : Option Nat
  disposed : Bool
  startInFlight : Bool
  restartCount : Nat
  startedAt : Option Nat
  lastEventAt : Option Nat
  lastError : Option String
  status : PiStatus

/-- Parameters of the notifications the supervisor emits. -/
inductive NotifParams where
  | health (h : PiRuntimeHealth)
  | malformed (line : String)
  | stderrText (message : String)
  | event (eventType : String) (data : Json) (raw : Json)

/-- A `PiRuntimeNotification`; `atIso` timestamps are modelled as `Nat`. -/
structure Notification where
  method : String
  params : NotifParams
  atIso : Nat

/-- Observable effects of one supervisor step: settling a pending call's
promise, emitting a notification, writing a line to the child's stdin,
or arming the restart timer. -/
inductive Effect where
  | resolve (id : String) (value : Json)
  | reject (id : String) (message : String)
  | notify (n : Notification)
  | write (payload : Json)
  | scheduleRestartTimer (delayMs : Nat)

/-- `health()`. -/
def SupState.health (st : SupState) : PiRuntimeHealth :=
  { status := st.status
    pid := st.process
    restartCount := st.restartCount
    startedAt := st.startedAt
    lastEventAt := st.lastEventAt
    lastError := st.lastError }

/-- `setStatus`: record the status (and error text when given) and emit a
`pi/error` or `pi/status` notification carrying the current health. -/
def setStatus (st : SupState) (status : PiStatus) (error : Option String) (now : Nat) :
    SupState × List Effect :=
  let st := { st with
    status := status
    lastError := match error with | some e => some e | none => st.lastError }
  (st, [.notify { method := if status = .errored then "pi/error" else "pi/status"
                  params := .health st.health
                  atIso := now }])

/-- `scheduleRestart`: arm one restart timer with the capped linear backoff
delay, unless disposed or a timer is already pending. -/
def scheduleRestart (st : SupState) : SupState × List Effect :=
  if st.disposed then (st, [])
  else if st.restartTimer.isSome then (st, [])
  else
    let delayMs := min 30000 (1000 * max 1 st.restartCount)
    ({ st with restartTimer := some delayMs }, [.scheduleRestartTimer delayMs])

/-- `failAllPending`: reject every pending entry with the given reason and
clear the pending map (each entry's timer is also cleared). -/
def failAllPending (st : SupState) (reason : String) : SupState × List Effect :=
  ({ st with pending := [] }, st.pending.map (fun p => Effect.reject p.2.id reason))

/-- `handleResponseMessage`: route a `type == "response"` message to the
matching pending entry; ignore it when the id is empty or unknown. -/
def handleResponseMessage (st : SupState) (fields : List (String × Json)) :
    SupState × List Effect :=
  let id := strField fields "id"
  if id = "" then (st, [])
  else
    match mapGet st.pending id with
    | none => (st, [])
    | some pending =>
      let st := { st with pending := mapDelete st.pending id }
      match mapGet fields "success" with
      | some (.bool false) =>
        let errorMessage :=
          match mapGet fields "error" with
          | some (.str e) =>
            if 0 < (jsTrim e).length then e else "Pi command " ++ pending.command ++ " failed"
          | _ => "Pi command " ++ pending.command ++ " failed"
        (st, [.reject pending.id errorMessage])
      | _ => (st, [.resolve pending.id ((mapGet fields "data").getD .null)])

/-- `handleEventMessage`: convert any non-response message into a `pi/event`
notification with a normalized event type and the `data` payload. -/
def handleEventMessage (st : SupState) (fields : List (String × Json)) (now : Nat) :
    SupState × List Effect :=
  let eventType :=
    match mapGet fields "type" with
    | some (.str s) => if 0 < s.length then s else "unknown"
    | _ => "unknown"
  let data :=
    match mapGet fields "data" with
    | some v => v
    | none => Json.null
  let st := { st with lastEventAt := some now }
  (st, [.notify { method := "pi/event"
                  params := .event eventType data (.obj fields)
                  atIso := now }])

/-- `handleStdoutLine`: parse the line as JSON (the external `JSON.parse` is
passed in as `parse`), emit a `pi/error` notification when parsing fails,
route response messages to `handleResponseMessage` and everything else to
`handleEventMessage`. -/
def handleStdoutLine (parse : String → Option Json) (st : SupState) (line : String)
    (now : Nat) : SupState × List Effect :=
  match parse line with
  | none =>
    (st, [.notify { method := "pi/error", params := .malformed line, atIso := now }])
  | some parsed =>
    match asRecord parsed with
    | none => (st, [])
    | some fields =>
      let msgType := strField fields "type"
      let id := strField fields "id"
      if msgType = "response" ∧ 0 < id.length then handleResponseMessage st fields
      else handleEventMessage st fields now

/-! ### Stdout framing -/

/-- `readBuffer.indexOf('\n')`. -/
def findNewline : List Char → Option Nat
  | [] => none
  | c :: rest => if c = '\n' then some 0 else (findNewline rest).map (· + 1)

theorem findNewline_some_lt {l : List Char} {i : Nat} (h : findNewline l = some i) :
    i < l.length := by
  induction l generalizing i with
  | nil => simp [findNewline] at h
  | cons c rest ih =>
    simp only [findNewline] at h
    split at h
    · simp only [Option.some.injEq] at h
      subst h; simp
    · simp only [Option.map_eq_some'] at h
      obtain ⟨j, hj, rfl⟩ := h
      have := ih hj
      simp only [List.length_cons]
      omega

/-- The stdout `data` listener's drain loop: while a newline is present,
split off the prefix, trim it, and keep it when non-empty; return the
processed lines in order together with the remaining buffer. -/
def pumpBuffer (buf : List Char) : List (List Char) × List Char :=
  match h : findNewline buf with
  | none => ([], buf)
  | some i =>
    let r := pumpBuffer (buf.drop (i + 1))
    (if (trimChars (buf.take i)).isEmpty then r.1 else trimChars (buf.take i) :: r.1, r.2)
termination_by buf.length
decreasing_by
  have := findNewline_some_lt h
  simp only [List.length_drop]
  omega

/-- The stdout `data` listener: append the chunk to the buffer and drain all
complete lines, handing each to `handleStdoutLine` (returned here as the
list of lines, in processing order). -/
def onStdoutData (st : SupState) (chunk : List Char) : SupState × List (List Char) :=
  let r := pumpBuffer (st.readBuffer ++ chunk)
  ({ st with readBuffer := r.2 }, r.1)

/-! ### Lifecycle -/

inductive StartAction where
  | rejectedDisposed
  | alreadyRunning
  | joinedInFlight
  | spawned
deriving DecidableEq, Repr

/-- `startProcess`: reject when disposed, return immediately when a process
is live, join an in-flight start, and otherwise transition to `starting`
and spawn exactly one child process. -/
def startProcess (st : SupState) (now : Nat) : SupState × StartAction × List Effect :=
  if st.disposed then (st, .rejectedDisposed, [])
  else if st.process.isSome then (st, .alreadyRunning, [])
  else if st.startInFlight then (st, .joinedInFlight, [])
  else
    let st := { st with startInFlight := true }
    let r := setStatus st .starting none now
    (r.1, .spawned, r.2)

/-- `ensureStarted` simply awaits `startProcess`. -/
def ensureStarted (st : SupState) (now : Nat) : SupState × StartAction × List Effect :=
  startProcess st now

/-- `n` back-to-back `ensureStarted()` invocations with no intervening
spawn-completion or exit events, collecting each call's action. -/
def ensureStartedTimes : SupState → Nat → Nat → SupState × List StartAction
  | st, _, 0 => (st, [])
  | st, now, n + 1 =>
    let r := ensureStarted st now
    let rest := ensureStartedTimes r.1 now n
    (rest.1, r.2.1 :: rest.2)

/-- The `spawn` event handler: record the live process, count the successful
spawn, reset the buffer and transition to `running` (the start promise is
settled, modelled by clearing `startInFlight`). -/
def onProcessSpawn (st : SupState) (pid : Nat) (now : Nat) : SupState × List Effect :=
  let st := { st with
    process := some pid
    restartCount := st.restartCount + 1
    startedAt := some now
    readBuffer := []
    startInFlight := false }
  setStatus st .running none now

/-- The exit reason text built in the `exit` handler. -/
def exitMessage : Option String → String
  | some sig => "Pi runtime stopped by signal " ++ sig
  | none => "Pi runtime exited"

/-- The `exit` event handler: drop the handle and buffer, record the exit
reason while not disposed, fail every pending entry, then either settle
into `stopped` (disposed) or transition to `errored` and schedule a
restart. -/
def onProcessExit (st : SupState) (signal : Option String) (now : Nat) :
    SupState × List Effect :=
  let st := { st with process := none, readBuffer := [] }
  let message := exitMessage signal
  let st := if st.disposed then st else { st with lastError := some message }
  let r1 := failAllPending st message
  if r1.1.disposed then
    let r2 := setStatus r1.1 .stopped none now
    (r2.1, r1.2 ++ r2.2)
  else
    let r2 := setStatus r1.1 .errored (some message) now
    let r3 := scheduleRestart r2.1
    (r3.1, r1.2 ++ r2.2 ++ r3.2)

/-- The per-call timeout callback: drop the pending entry and reject the
call with a descriptive error naming the command and the timeout. -/
def onCallTimeout (st : SupState) (id : String) (command : String) (timeoutMs : Nat) :
    SupState × List Effect :=
  ({ st with pending := mapDelete st.pending id },
   [.reject id ("Pi command \"" ++ command ++ "\" timed out after "
      ++ Nat.repr timeoutMs ++ "ms")])

/-- The outbound envelope `{id, type: command, ...params}` built by `call`:
the generated fields are assigned first, then every entry of `params` is
spread over them in order (overwriting on key collision). -/
def buildCallPayload (id command : String) (params : List (String × Json)) : Json :=
  .obj (params.foldl (fun acc kv => mapSet acc kv.1 kv.2)
    [("id", .str id), ("type", .str command)])

/-- The synchronous registration part of `call` (after `ensureStarted`
succeeded): generate the `req-N` id, bump the counter, register the pending
entry and write the serialized envelope. -/
def callStep (st : SupState) (command : String) (params : List (String × Json)) :
    SupState × String × List Effect :=
  let id := "req-" ++ Nat.repr st.requestCounter
  let payload := buildCallPayload id command params
  let st := { st with
    requestCounter := st.requestCounter + 1
    pending := mapSet st.pending id { id := id, command := command } }
  (st, id, [.write payload])

/-- The `/pi-api/rpc` request handler's extraction step: require a string
`method` (trimmed, non-empty), and forward `params` verbatim when it is a
record (defaulting to the empty record). -/
def piApiRpcRequest (body : Json) : Option (String × List (String × Json)) :=
  let payload := asRecord body
  let method :=
    match payload with
    | some fields =>
      match mapGet fields "method" with
      | some (.str s) => jsTrim s
      | _ => ""
    | none => ""
  if method = "" then none
  else
    let params :=
      match payload with
      | some fields => ((mapGet fields "params").bind asRecord).getD []
      | none => []
    some (method, params)

/-! ### Pairing guard (`PiPairingGuard`) -/

def PAIRING_CODE_UPPER_BOUND : Nat := 1000000
def MAX_PAIR_ATTEMPTS : Nat := 5
def LOCKOUT_SECONDS : Nat := 300
def MAX_TRACKED_CLIENTS : Nat := 1024

/-- Per-client failed-attempt record. -/
structure AttemptState where
  count : Nat
  lockedAtMs : Option Int
deriving DecidableEq, Repr

/-- The in-memory state of a `PiPairingGuard` after construction. -/
structure GuardState where
  requirePairing : Bool
  pairingCode : Option String
  tokenHashes : List String
  attempts : List (String × AttemptState)
deriving DecidableEq, Repr

/-- `looksLikeHash`: exactly 64 hex characters. -/
def looksLikeHash (value : String) : Bool :=
  value.length == 64 &&
    value.data.all (fun c => c.isDigit || ('a' ≤ c && c ≤ 'f') || ('A' ≤ c && c ≤ 'F'))

/-- `generatePairingCode`: a uniformly random integer below 10^6 (the
randomness is passed in as `rand`), rendered in decimal and left-padded
with zeros to 6 characters. -/
def generatePairingCode (rand : Nat) : String :=
  let s := Nat.repr (rand % PAIRING_CODE_UPPER_BOUND)
  String.mk (List.replicate (6 - s.length) '0' ++ s.data)

/-- One stored token entry, normalized on load: legacy raw tokens are
hashed, stored hashes are lowercased. -/
def normalizeStoredToken (hashFn : String → String) (token : String) : String :=
  if looksLikeHash token then String.mk (token.data.map Char.toLower) else hashFn token

/-- The body of `load()`: fold the persisted entries into the token set
(`stored = none` models a missing or malformed store file), then generate a
pairing code when pairing is required and no token exists.  Because
`loadPromise` is reset after every call, this step runs again at the start
of every public operation. -/
def reloadStep (st : GuardState) (stored : Option (List String)) (hashFn : String → String)
    (rand : Nat) : GuardState :=
  let tokenHashes :=
    match stored with
    | none => st.tokenHashes
    | some entries =>
      entries.foldl
        (fun acc token =>
          if token.length = 0 then acc else setAdd acc (normalizeStoredToken hashFn token))
        st.tokenHashes
  { st with
    tokenHashes := tokenHashes
    pairingCode :=
      if st.requirePairing && tokenHashes.isEmpty then some (generatePairingCode rand)
      else st.pairingCode }

/-- The state of a freshly constructed guard (before any load). -/
def freshGuard (requirePairing : Bool) : GuardState :=
  { requirePairing := requirePairing, pairingCode := none, tokenHashes := [], attempts := [] }

/-- `normalizeClientKey`. -/
def normalizeClientKey (clientKey : String) : String :=
  let normalized := jsTrim clientKey
  if 0 < normalized.length then normalized else "unknown"

/-- `clearExpiredAttempts`: drop records whose lockout window has elapsed,
then evict oldest entries beyond the tracking cap. -/
def clearExpiredAttempts (attempts : List (String × AttemptState)) (nowMs : Int) :
    List (String × AttemptState) :=
  let cleared := attempts.filter (fun p =>
    match p.2.lockedAtMs with
    | none => true
    | some lockedAt => decide (nowMs - lockedAt < (LOCKOUT_SECONDS : Int) * 1000))
  if cleared.length ≤ MAX_TRACKED_CLIENTS then cleared
  else cleared.drop (cleared.length - MAX_TRACKED_CLIENTS)

/-- `getLockoutRemainingSeconds`: ceiling of the remaining lockout window in
seconds, or 0 when not locked or expired. -/
def getLockoutRemainingSeconds (attempts : List (String × AttemptState))
    (clientKey : String) (nowMs : Int) : Nat :=
  match mapGet attempts clientKey with
  | none => 0
  | some record =>
    match record.lockedAtMs with
    | none => 0
    | some lockedAt =>
      let elapsedMs := nowMs - lockedAt
      let remainingMs := (LOCKOUT_SECONDS : Int) * 1000 - elapsedMs
      if 0 < remainingMs then (remainingMs.toNat + 999) / 1000 else 0

/-- `markFailedAttempt`: clear expired records, reset an expired lockout,
bump the failure counter, and record a lockout timestamp when the counter
reaches the threshold. -/
def markFailedAttempt (attempts : List (String × AttemptState)) (clientKey : String)
    (nowMs : Int) : List (String × AttemptState) :=
  let attempts := clearExpiredAttempts attempts nowMs
  let record := (mapGet attempts clientKey).getD { count := 0, lockedAtMs := none }
  let record :=
    match record.lockedAtMs with
    | some lockedAt =>
      if (LOCKOUT_SECONDS : Int) * 1000 ≤ nowMs - lockedAt then
        ({ count := 0, lockedAtMs := none } : AttemptState)
      else record
    | none => record
  let record := { record with count := record.count + 1 }
  let record :=
    if MAX_PAIR_ATTEMPTS ≤ record.count then { record with lockedAtMs := some nowMs }
    else record
  mapSet attempts clientKey record

inductive PairFailReason where
  | pairing_disabled
  | already_paired
  | invalid_code
  | locked
deriving DecidableEq, Repr

/-- The result of `tryPair`. -/
inductive PairResult where
  | ok (token : String)
  | fail (reason : PairFailReason) (retryAfterSeconds : Option Nat)
deriving DecidableEq, Repr

/-- The body of `tryPair` after `load()`: refuse when pairing is disabled,
then while the client is locked out, then when no code is pending; compare
the trimmed candidate exactly; on mismatch mark the failure (possibly
crossing into lockout); on match clear the client's failures, store the
hash of the fresh token, clear the code and return the plaintext token. -/
def tryPair (st : GuardState) (inputCode : String) (clientKey : String) (nowMs : Int)
    (freshToken : String) (hashFn : String → String) : GuardState × PairResult :=
  if st.requirePairing = false then (st, .fail .pairing_disabled none)
  else
    let normalizedClientKey := normalizeClientKey clientKey
    let remainingLockout := getLockoutRemainingSeconds st.attempts normalizedClientKey nowMs
    if 0 < remainingLockout then (st, .fail .locked (some remainingLockout))
    else
      match st.pairingCode with
      | none => (st, .fail .already_paired none)
      | some code =>
        let candidate := jsTrim inputCode
        if candidate ≠ code then
          let attempts := markFailedAttempt st.attempts normalizedClientKey nowMs
          let retryAfterSeconds := getLockoutRemainingSeconds attempts normalizedClientKey nowMs
          if 0 < retryAfterSeconds then
            ({ st with attempts := attempts }, .fail .locked (some retryAfterSeconds))
          else ({ st with attempts := attempts }, .fail .invalid_code none)
        else
          ({ st with
              attempts := mapDelete st.attempts normalizedClientKey
              tokenHashes := setAdd st.tokenHashes (hashFn freshToken)
              pairingCode := none },
           .ok freshToken)

/-- The `status()` view of a loaded guard state. -/
structure PairingStatus where
  pairingRequired : Bool
  paired : Bool
  pairingCode : Option String
deriving DecidableEq, Repr

/-- `status()` after `load()`: paired when any token hash exists; the code is
exposed only while pairing is required. -/
def statusView (st : GuardState) : PairingStatus :=
  { pairingRequired := st.requirePairing
    paired := !st.tokenHashes.isEmpty
    pairingCode := if st.requirePairing then st.pairingCode else none }

/-! ### Association-list map lemmas -/

theorem mapGet_mapDelete_self {α : Type} (m : List (String × α)) (k : String) :
    mapGet (mapDelete m k) k = none := by
  induction m with
  | nil => rfl
  | cons p rest ih =>
    simp only [mapDelete]
    split
    · exact ih
    · rename_i h
      simp only [mapGet, if_neg h]
      exact ih

theorem mapGet_mapDelete_of_ne {α : Type} (m : List (String × α)) {k k2 : String}
    (h : k2 ≠ k) : mapGet (mapDelete m k2) k = mapGet m k := by
  induction m with
  | nil => rfl
  | cons p rest ih =>
    simp only [mapDelete, mapGet]
    split
    · rename_i hp
      rw [ih, if_neg (show p.1 ≠ k by rw [hp]; exact h)]
    · simp only [mapGet]
      split
      · rfl
      · exact ih

theorem mapGet_append {α : Type} (m m2 : List (String × α)) (k : String) :
    mapGet (m ++ m2) k =
      match mapGet m k with
      | some v => some v
      | none => mapGet m2 k := by
  induction m with
  | nil => rfl
  | cons p rest ih =>
    simp only [List.cons_append, mapGet]
    split
    · rfl
    · exact ih

theorem mapHas_false_head {α : Type} {p : String × α} {rest : List (String × α)} {k : String}
    (h : mapHas (p :: rest) k = false) : p.1 ≠ k ∧ mapHas rest k = false := by
  simp only [mapHas] at h
  constructor
  · intro hk
    rw [if_pos hk] at h
    exact Bool.true_eq_false.mp h
  · by_cases hk : p.1 = k
    · rw [if_pos hk] at h
      exact absurd h (by simp)
    · rwa [if_neg hk] at h

theorem mapGet_map_overwrite {α : Type} {m : List (String × α)} {k : String} (v : α)
    (hhas : mapHas m k = true) :
    mapGet (m.map (fun p => if p.1 = k then (k, v) else p)) k = some v := by
  induction m with
  | nil => simp [mapHas] at hhas
  | cons p rest ih =>
    simp only [List.map_cons]
    by_cases hk : p.1 = k
    · rw [if_pos hk]
      simp [mapGet]
    · rw [if_neg hk]
      simp only [mapGet, if_neg hk]
      simp only [mapHas, if_neg hk] at hhas
      exact ih hhas

theorem mapGet_map_keep {α : Type} {m : List (String × α)} {k k2 : String} (v : α)
    (h : k2 ≠ k) :
    mapGet (m.map (fun p => if p.1 = k2 then (k2, v) else p)) k = mapGet m k := by
  induction m with
  | nil => rfl
  | cons p rest ih =>
    simp only [List.map_cons]
    by_cases hp : p.1 = k2
    · rw [if_pos hp]
      simp only [mapGet, if_neg h, if_neg (hp ▸ h : p.1 ≠ k)]
      exact ih
    · rw [if_neg hp]
      simp only [mapGet]
      split
      · rfl
      · exact ih

theorem mapGet_eq_none_of_not_has {α : Type} {m : List (String × α)} {k : String}
    (hhas : mapHas m k = false) : mapGet m k = none := by
  induction m with
  | nil => rfl
  | cons p rest ih =>
    obtain ⟨hp, hrest⟩ := mapHas_false_head hhas
    simp only [mapGet, if_neg hp]
    exact ih hrest

theorem mapGet_mapSet_self {α : Type} (m : List (String × α)) (k : String) (v : α) :
    mapGet (mapSet m k v) k = some v := by
  unfold mapSet
  split
  · rename_i hhas
    exact mapGet_map_overwrite v hhas
  · rename_i hhas
    rw [mapGet_append, mapGet_eq_none_of_not_has (Bool.of_not_eq_true hhas)]
    simp [mapGet]

theorem mapGet_mapSet_of_ne {α : Type} (m : List (String × α)) {k k2 : String} (v : α)
    (h : k2 ≠ k) : mapGet (mapSet m k2 v) k = mapGet m k := by
  unfold mapSet
  split
  · exact mapGet_map_keep v h
  · rw [mapGet_append]
    cases hm : mapGet m k with
    | some v2 => rfl
    | none => simp [mapGet, if_neg h]

theorem mapGet_foldl_mapSet_of_not_mem {α : Type} (kvs : List (String × α))
    (acc : List (String × α)) {k : String}
    (h : k ∉ kvs.map Prod.fst) :
    mapGet (kvs.foldl (fun acc kv => mapSet acc kv.1 kv.2) acc) k = mapGet acc k := by
  induction kvs generalizing acc with
  | nil => rfl
  | cons kv rest ih =>
    simp only [List.map_cons, List.mem_cons] at h
    push_neg at h
    simp only [List.foldl_cons]
    rw [ih _ h.2]
    exact mapGet_mapSet_of_ne acc kv.2 (Ne.symm h.1)

theorem mapGet_foldl_mapSet_of_mem {α : Type} (kvs : List (String × α))
    (acc : List (String × α)) {k : String} {v : α}
    (hmem : (k, v) ∈ kvs) (hnd : (kvs.map Prod.fst).Nodup) :
    mapGet (kvs.foldl (fun acc kv => mapSet acc kv.1 kv.2) acc) k = some v := by
  induction kvs generalizing acc with
  | nil => exact absurd hmem (List.not_mem_nil _)
  | cons kv rest ih =>
    simp only [List.map_cons, List.nodup_cons] at hnd
    rcases List.mem_cons.mp hmem with heq | htail
    · subst heq
      simp only [List.foldl_cons]
      rw [mapGet_foldl_mapSet_of_not_mem _ _ hnd.1, mapGet_mapSet_self]
    · simp only [List.foldl_cons]
      exact ih _ htail hnd.2

theorem string_length_pos_of_ne_empty {s : String} (h : s ≠ "") : 0 < s.length := by
  cases s with
  | mk data =>
    cases data with
    | nil => exact absurd rfl h
    | cons c cs =>
      show 0 < (c :: cs).length
      simp

/-! ### C1: response routing -/

/-- C1: when a stdout line parses to a JSON object with `type == "response"`
and a non-empty id equal to a pending call's id, the call resolves to the
response's `data` field when `success` is not `false` and rejects with the
reported error text when `success == false`; a response whose id matches no
pending entry is ignored and leaves the supervisor state unchanged. -/
theorem c1_response_routing
    (parse : String → Option Json) (st : SupState) (line : String) (now : Nat)
    (fields : List (String × Json)) (rid : String)
    (hparse : parse line = some (.obj fields))
    (htype : strField fields "type" = "response")
    (hid : strField fields "id" = rid)
    (hne : rid ≠ "") :
    (∀ entry, mapGet st.pending rid = some entry →
      (mapGet fields "success" = some (.bool false) →
        ∃ msg, handleStdoutLine parse st line now =
            ({ st with pending := mapDelete st.pending rid }, [.reject entry.id msg]) ∧
          (∀ e, mapGet fields "error" = some (.str e) → 0 < (jsTrim e).length → msg = e)) ∧
      (mapGet fields "success" ≠ some (.bool false) →
        handleStdoutLine parse st line now =
          ({ st with pending := mapDelete st.pending rid },
           [.resolve entry.id ((mapGet fields "data").getD .null)]))) ∧
    (mapGet st.pending rid = none →
      handleStdoutLine parse st line now = (st, [])) := by
  have hlen : 0 < rid.length := string_length_pos_of_ne_empty hne
  have hmain : handleStdoutLine parse st line now = handleResponseMessage st fields := by
    simp only [handleStdoutLine, hparse, asRecord]
    rw [if_pos]
    exact ⟨htype, by rw [hid]; exact hlen⟩
  refine ⟨fun entry hentry => ⟨fun hsucc => ?_, fun hsucc => ?_⟩, fun hnone => ?_⟩
  · rw [hmain]
    simp only [handleResponseMessage, hid, if_neg hne, hentry, hsucc]
    refine ⟨_, rfl, fun e he hepos => ?_⟩
    rw [he]
    show (if 0 < (jsTrim e).length then e
        else "Pi command " ++ entry.command ++ " failed") = e
    exact if_pos hepos
  · rw [hmain]
    simp only [handleResponseMessage, hid, if_neg hne, hentry]
  · rw [hmain]
    simp only [handleResponseMessage, hid, if_neg hne, hnone]

/-- Witness for C1 at a concrete response line and pending map. -/
theorem c1_response_routing_witness :
    handleStdoutLine
        (fun _ => some (.obj [("id", Json.str "req-1"), ("type", Json.str "response"),
          ("success", Json.bool true), ("data", Json.str "ok")]))
        { process := some 42, readBuffer := [],
          pending := [("req-1", { id := "req-1", command := "get_state" })],
          requestCounter := 2, restartTimer := none, disposed := false,
          startInFlight := false, restartCount := 1, startedAt := some 0,
          lastEventAt := none, lastError := none, status := .running }
        "raw-line" 7 =
      ({ process := some 42, readBuffer := [], pending := [],
         requestCounter := 2, restartTimer := none, disposed := false,
         startInFlight := false, restartCount := 1, startedAt := some 0,
         lastEventAt := none, lastError := none, status := .running },
       [.resolve "req-1" (Json.str "ok")]) := by
  have h := (c1_response_routing
    (fun _ => some (.obj [("id", Json.str "req-1"), ("type", Json.str "response"),
      ("success", Json.bool true), ("data", Json.str "ok")]))
    { process := some 42, readBuffer := [],
      pending := [("req-1", { id := "req-1", command := "get_state" })],
      requestCounter := 2, restartTimer := none, disposed := false,
      startInFlight := false, restartCount := 1, startedAt := some 0,
      lastEventAt := none, lastError := none, status := .running }
    "raw-line" 7 _ "req-1" rfl rfl rfl (by decide)).1
    { id := "req-1", command := "get_state" } rfl
  exact h.2 (by simp [mapGet])

/-! ### C4: malformed lines -/

/-- C4: a non-empty stdout line that fails to parse emits exactly one error
notification describing the malformed line, changes no supervisor state,
and subsequent lines are processed exactly as they would have been. -/
theorem c4_malformed_line
    (parse : String → Option Json) (st : SupState) (line : String) (now : Nat)
    (_hline : line ≠ "") (hfail : parse line = none) :
    handleStdoutLine parse st line now =
      (st, [.notify { method := "pi/error", params := .malformed line, atIso := now }]) ∧
    (∀ line2 now2, handleStdoutLine parse (handleStdoutLine parse st line now).1 line2 now2 =
        handleStdoutLine parse st line2 now2) := by
  have h1 : handleStdoutLine parse st line now =
      (st, [.notify { method := "pi/error", params := .malformed line, atIso := now }]) := by
    simp only [handleStdoutLine, hfail]
  exact ⟨h1, fun line2 now2 => by rw [h1]⟩

/-- Witness for C4 on the spec's example line `"not json"`. -/
theorem c4_malformed_line_witness :
    handleStdoutLine (fun _ => none)
        { process := some 42, readBuffer := [], pending := [],
          requestCounter := 1, restartTimer := none, disposed := false,
          startInFlight := false, restartCount := 1, startedAt := some 0,
          lastEventAt := none, lastError := none, status := .running }
        "not json" 3 =
      ({ process := some 42, readBuffer := [], pending := [],
         requestCounter := 1, restartTimer := none, disposed := false,
         startInFlight := false, restartCount := 1, startedAt := some 0,
         lastEventAt := none, lastError := none, status := .running },
       [.notify { method := "pi/error", params := .malformed "not json", atIso := 3 }]) :=
  (c4_malformed_line (fun _ => none) _ "not json" 3 (by decide) rfl).1

/-! ### C5: timeout semantics -/

/-- C5: when a call's timer fires, the pending entry is removed and the call
is rejected with a descriptive error naming the command and the timeout;
any response arriving afterwards for the same id is a no-op (it changes no
state and settles nothing). -/
theorem c5_timeout_semantics (st : SupState) (id command : String) (timeoutMs : Nat) :
    onCallTimeout st id command timeoutMs =
      ({ st with pending := mapDelete st.pending id },
       [.reject id ("Pi command \"" ++ command ++ "\" timed out after "
          ++ Nat.repr timeoutMs ++ "ms")]) ∧
    mapGet (onCallTimeout st id command timeoutMs).1.pending id = none ∧
    (∀ fields, strField fields "id" = id →
      handleResponseMessage (onCallTimeout st id command timeoutMs).1 fields =
        ((onCallTimeout st id command timeoutMs).1, [])) := by
  refine ⟨rfl, ?_, fun fields hf => ?_⟩
  · simp only [onCallTimeout]
    exact mapGet_mapDelete_self st.pending id
  · simp only [handleResponseMessage, hf, onCallTimeout]
    by_cases hid : id = ""
    · rw [if_pos hid]
    · rw [if_neg hid, mapGet_mapDelete_self]

/-- Witness for C5: the spec's 5ms-timeout example followed by a
late-arriving response for the same id. -/
theorem c5_timeout_semantics_witness :
    onCallTimeout
        { process := some 42, readBuffer := [],
          pending := [("req-1", { id := "req-1", command := "prompt" })],
          requestCounter := 2, restartTimer := none, disposed := false,
          startInFlight := false, restartCount := 1, startedAt := some 0,
          lastEventAt := none, lastError := none, status := .running }
        "req-1" "prompt" 5 =
      ({ process := some 42, readBuffer := [], pending := [],
         requestCounter := 2, restartTimer := none, disposed := false,
         startInFlight := false, restartCount := 1, startedAt := some 0,
         lastEventAt := none, lastError := none, status := .running },
       [.reject "req-1" "Pi command \"prompt\" timed out after 5ms"]) ∧
    handleResponseMessage
        (onCallTimeout
          { process := some 42, readBuffer := [],
            pending := [("req-1", { id := "req-1", command := "prompt" })],
            requestCounter := 2, restartTimer := none, disposed := false,
            startInFlight := false, restartCount := 1, startedAt := some 0,
            lastEventAt := none, lastError := none, status := .running }
          "req-1" "prompt" 5).1
        [("id", Json.str "req-1"), ("type", Json.str "response"),
         ("success", Json.bool true)] =
      ((onCallTimeout
          { process := some 42, readBuffer := [],
            pending := [("req-1", { id := "req-1", command := "prompt" })],
            requestCounter := 2, restartTimer := none, disposed := false,
            startInFlight := false, restartCount := 1, startedAt := some 0,
            lastEventAt := none, lastError := none, status := .running }
          "req-1" "prompt" 5).1, []) :=
  ⟨(c5_timeout_semantics _ "req-1" "prompt" 5).1,
   (c5_timeout_semantics _ "req-1" "prompt" 5).2.2 _ rfl⟩

/-! ### C9: ensureStarted idempotence -/

theorem ensureStartedTimes_running (st : SupState) (now : Nat) (n : Nat)
    (hd : st.disposed = false) (hp : st.process.isSome = true) :
    ensureStartedTimes st now n = (st, List.replicate n .alreadyRunning) := by
  induction n with
  | zero => rfl
  | succ n ih =>
    simp [ensureStartedTimes, ensureStarted, startProcess, hd, hp, ih, List.replicate_succ]

theorem ensureStartedTimes_inflight (st : SupState) (now : Nat) (n : Nat)
    (hd : st.disposed = false) (hp : st.process = none) (hs : st.startInFlight = true) :
    ensureStartedTimes st now n = (st, List.replicate n .joinedInFlight) := by
  induction n with
  | zero => rfl
  | succ n ih =>
    simp [ensureStartedTimes, ensureStarted, startProcess, hd, hp, hs, ih,
      List.replicate_succ]

theorem count_spawned_replicate (n : Nat) (a : StartAction) (h : a ≠ .spawned) :
    (List.replicate n a).count .spawned = 0 := by
  induction n with
  | zero => rfl
  | succ n ih =>
    simp only [List.replicate_succ, List.count_cons, ih]
    simp [h]

/-- C9: `ensureStarted()` is idempotent: while a process is live every call
returns `alreadyRunning` and changes nothing; while a spawn is in flight
every call joins it; and from an idle (non-disposed) supervisor any positive
number of back-to-back calls spawns exactly once. -/
theorem c9_ensure_started_idempotent (st : SupState) (now n : Nat)
    (hd : st.disposed = false) :
    (st.process.isSome = true →
      ensureStartedTimes st now n = (st, List.replicate n .alreadyRunning) ∧
      (ensureStartedTimes st now n).2.count .spawned = 0) ∧
    (st.process = none → st.startInFlight = true →
      ensureStartedTimes st now n = (st, List.replicate n .joinedInFlight) ∧
      (ensureStartedTimes st now n).2.count .spawned = 0) ∧
    (st.process = none → st.startInFlight = false → 0 < n →
      (ensureStartedTimes st now n).2 =
        .spawned :: List.replicate (n - 1) .joinedInFlight ∧
      (ensureStartedTimes st now n).2.count .spawned = 1) := by
  refine ⟨fun hp => ?_, fun hp hs => ?_, fun hp hs hn => ?_⟩
  · rw [ensureStartedTimes_running st now n hd hp]
    exact ⟨rfl, count_spawned_replicate n .alreadyRunning (by decide)⟩
  · rw [ensureStartedTimes_inflight st now n hd hp hs]
    exact ⟨rfl, count_spawned_replicate n .joinedInFlight (by decide)⟩
  · obtain ⟨m, rfl⟩ : ∃ m, n = m + 1 := ⟨n - 1, by omega⟩
    have hstep : ensureStartedTimes st now (m + 1) =
        ((ensureStartedTimes (startProcess st now).1 now m).1,
         .spawned :: (ensureStartedTimes (startProcess st now).1 now m).2) := by
      simp only [ensureStartedTimes, ensureStarted]
      simp only [startProcess, hd, hp, hs]
      simp
    have hrest : ensureStartedTimes (startProcess st now).1 now m =
        ((startProcess st now).1, List.replicate m .joinedInFlight) := by
      apply ensureStartedTimes_inflight
      · simp [startProcess, hd, hp, hs, setStatus]
      · simp [startProcess, hd, hp, hs, setStatus]
      · simp [startProcess, hd, hp, hs, setStatus]
    rw [hstep, hrest]
    refine ⟨by simp, ?_⟩
    simp only [List.count_cons, count_spawned_replicate m .joinedInFlight (by decide)]
    simp

/-- Witness for C9: three consecutive `ensureStarted()` calls on an idle
supervisor spawn exactly once. -/
theorem c9_ensure_started_idempotent_witness :
    (ensureStartedTimes
        { process := none, readBuffer := [], pending := [],
          requestCounter := 1, restartTimer := none, disposed := false,
          startInFlight := false, restartCount := 0, startedAt := none,
          lastEventAt := none, lastError := none, status := .stopped }
        0 3).2 = [.spawned, .joinedInFlight, .joinedInFlight] ∧
    (ensureStartedTimes
        { process := none, readBuffer := [], pending := [],
          requestCounter := 1, restartTimer := none, disposed := false,
          startInFlight := false, restartCount := 0, startedAt := none,
          lastEventAt := none, lastError := none, status := .stopped }
        0 3).2.count .spawned = 1 :=
  ⟨((c9_ensure_started_idempotent _ 0 3 rfl).2.2 rfl rfl (by decide)).1,
   ((c9_ensure_started_idempotent _ 0 3 rfl).2.2 rfl rfl (by decide)).2⟩

/-! ### C2: process-exit handling -/

/-- C2 (amended): on process exit while not disposed, every pending entry is
rejected exactly once with the exit reason, the pending map is emptied, the
exit reason becomes `lastError`, the status becomes `errored` with one
`pi/error` notification carrying the post-exit health, and — provided no
restart timer is already pending — exactly one restart timer is scheduled
with delay `min(30s, 1s × max(1, restartCount))`, where `restartCount`
counts prior successful spawns; when a restart timer is already pending it
is left unchanged and no new timer is scheduled. -/
theorem c2_exit_behavior (st : SupState) (signal : Option String) (now : Nat)
    (hd : st.disposed = false) :
    (st.restartTimer = none →
      onProcessExit st signal now =
        ({ st with
            process := none
            readBuffer := []
            pending := []
            lastError := some (exitMessage signal)
            status := .errored
            restartTimer := some (min 30000 (1000 * max 1 st.restartCount)) },
         (st.pending.map fun p => Effect.reject p.2.id (exitMessage signal)) ++
           [Effect.notify
              { method := "pi/error"
                params := .health
                  { status := .errored
                    pid := none
                    restartCount := st.restartCount
                    startedAt := st.startedAt
                    lastEventAt := st.lastEventAt
                    lastError := some (exitMessage signal) }
                atIso := now },
            Effect.scheduleRestartTimer (min 30000 (1000 * max 1 st.restartCount))])) ∧
    (∀ d, st.restartTimer = some d →
      onProcessExit st signal now =
        ({ st with
            process := none
            readBuffer := []
            pending := []
            lastError := some (exitMessage signal)
            status := .errored },
         (st.pending.map fun p => Effect.reject p.2.id (exitMessage signal)) ++
           [Effect.notify
              { method := "pi/error"
                params := .health
                  { status := .errored
                    pid := none
                    restartCount := st.restartCount
                    startedAt := st.startedAt
                    lastEventAt := st.lastEventAt
                    lastError := some (exitMessage signal) }
                atIso := now }])) ∧
    (∀ (st2 : SupState) (pid now2 : Nat),
      (onProcessSpawn st2 pid now2).1.restartCount = st2.restartCount + 1) := by
  obtain ⟨proc, rbuf, pend, rc, rt, disp, sif, rcnt, sa, lea, le, stat⟩ := st
  subst hd
  refine ⟨fun ht => ?_, fun d ht => ?_, fun st2 pid now2 => ?_⟩
  · subst ht
    simp [onProcessExit, failAllPending, setStatus, scheduleRestart, SupState.health]
  · subst ht
    simp [onProcessExit, failAllPending, setStatus, scheduleRestart, SupState.health]
  · simp [onProcessSpawn, setStatus]

/-- The claim of C2 as stated is violated when a restart timer scheduled by
a previous exit is still pending while the respawned process exits again:
no new timer is scheduled, and the pending timer's delay (1000ms, computed
when `restartCount` was 1) differs from `min(30000, 1000 × max(1,
restartCount)) = 2000` for the current `restartCount` of 2. -/
theorem c2_exit_counterexample :
    ((onProcessExit
        { process := some 42, readBuffer := [], pending := [],
          requestCounter := 1, restartTimer := some 1000, disposed := false,
          startInFlight := false, restartCount := 2, startedAt := some 0,
          lastEventAt := none, lastError := none, status := .running }
        none 5).2.countP (fun e =>
          match e with
          | Effect.scheduleRestartTimer _ => true
          | _ => false) = 0) ∧
    (onProcessExit
        { process := some 42, readBuffer := [], pending := [],
          requestCounter := 1, restartTimer := some 1000, disposed := false,
          startInFlight := false, restartCount := 2, startedAt := some 0,
          lastEventAt := none, lastError := none, status := .running }
        none 5).1.restartTimer = some 1000 ∧
    min 30000 (1000 * max 1 (2 : Nat)) = 2000 ∧ (1000 : Nat) ≠ 2000 :=
  ⟨rfl, rfl, rfl, by decide⟩

/-- Witness for C2 (amended) at a concrete state with two pending calls. -/
theorem c2_exit_behavior_witness :
    onProcessExit
        { process := some 42, readBuffer := ['x'],
          pending := [("req-1", { id := "req-1", command := "get_state" }),
                      ("req-2", { id := "req-2", command := "prompt" })],
          requestCounter := 3, restartTimer := none, disposed := false,
          startInFlight := false, restartCount := 1, startedAt := some 0,
          lastEventAt := none, lastError := none, status := .running }
        none 9 =
      ({ process := none, readBuffer := [], pending := [],
         requestCounter := 3, restartTimer := some 1000, disposed := false,
         startInFlight := false, restartCount := 1, startedAt := some 0,
         lastEventAt := none, lastError := some "Pi runtime exited",
         status := .errored },
       [.reject "req-1" "Pi runtime exited",
        .reject "req-2" "Pi runtime exited",
        .notify
          { method := "pi/error"
            params := .health
              { status := .errored, pid := none, restartCount := 1,
                startedAt := some 0, lastEventAt := none,
                lastError := some "Pi runtime exited" }
            atIso := 9 },
        .scheduleRestartTimer 1000]) :=
  (c2_exit_behavior _ none 9 rfl).1 rfl

/-! ### C3: stdout line framing -/

theorem findNewline_none {l : List Char} (h : findNewline l = none) : '\n' ∉ l := by
  induction l with
  | nil => simp
  | cons c rest ih =>
    simp only [findNewline] at h
    split at h
    · exact absurd h (by simp)
    · rename_i hc
      simp only [Option.map_eq_none'] at h
      simp only [List.mem_cons, not_or]
      exact ⟨fun he => hc he.symm, ih h⟩

theorem findNewline_decomp {l : List Char} {i : Nat} (h : findNewline l = some i) :
    l = l.take i ++ '\n' :: l.drop (i + 1) ∧ '\n' ∉ l.take i := by
  induction l generalizing i with
  | nil => simp [findNewline] at h
  | cons c rest ih =>
    simp only [findNewline] at h
    split at h
    · rename_i hc
      simp only [Option.some.injEq] at h
      subst h
      subst hc
      simp
    · rename_i hc
      simp only [Option.map_eq_some'] at h
      obtain ⟨j, hj, rfl⟩ := h
      obtain ⟨hdec, hmem⟩ := ih hj
      constructor
      · simp only [List.take_succ_cons, List.drop_succ_cons, List.cons_append]
        exact congrArg (List.cons c) hdec
      · simp only [List.take_succ_cons, List.mem_cons, not_or]
        exact ⟨fun he => hc he.symm, hmem⟩

theorem pumpBuffer_none {buf : List Char} (h : findNewline buf = none) :
    pumpBuffer buf = ([], buf) := by
  rw [pumpBuffer.eq_def]
  split
  · rfl
  · rename_i i h'
    rw [h] at h'
    exact absurd h' (by simp)

theorem pumpBuffer_some {buf : List Char} {i : Nat} (h : findNewline buf = some i) :
    pumpBuffer buf =
      ((if (trimChars (buf.take i)).isEmpty then (pumpBuffer (buf.drop (i + 1))).1
        else trimChars (buf.take i) :: (pumpBuffer (buf.drop (i + 1))).1),
       (pumpBuffer (buf.drop (i + 1))).2) := by
  rw [pumpBuffer.eq_def]
  split
  · rename_i h'
    rw [h] at h'
    exact absurd h' (by simp)
  · rename_i j h'
    rw [h] at h'
    cases h'
    rfl

/-- The drain loop processes exactly the newline-delimited prefixes of the
buffer, in order, trims each, skips the empty ones, and leaves the bytes
after the last newline buffered. -/
theorem pumpBuffer_spec (buf : List Char) :
    ∃ raws : List (List Char),
      buf = (raws.map (fun r => r ++ ['\n'])).flatten ++ (pumpBuffer buf).2 ∧
      (∀ r ∈ raws, '\n' ∉ r) ∧
      '\n' ∉ (pumpBuffer buf).2 ∧
      (pumpBuffer buf).1 = (raws.map trimChars).filter (fun l => !l.isEmpty) := by
  induction buf using pumpBuffer.induct with
  | case1 buf h =>
    rw [pumpBuffer_none h]
    exact ⟨[], by simp, by simp, findNewline_none h, by simp⟩
  | case2 buf i h ih =>
    obtain ⟨raws, hjoin, hnl, htail, hlines⟩ := ih
    obtain ⟨hdecomp, htake⟩ := findNewline_decomp h
    rw [pumpBuffer_some h]
    refine ⟨buf.take i :: raws, ?_, ?_, htail, ?_⟩
    · conv_lhs => rw [hdecomp, hjoin]
      simp [List.flatten_cons, List.append_assoc]
    · intro r hr
      rcases List.mem_cons.mp hr with rfl | hr2
      · exact htake
      · exact hnl r hr2
    · simp only [List.map_cons, List.filter_cons, hlines]
      by_cases he : (trimChars (buf.take i)).isEmpty = true
      · simp [he]
      · simp [he]

/-- C3: for every state of the accumulated buffer and every raw chunk, the
stdout data handler hands exactly the trimmed non-empty newline-delimited
prefixes of `readBuffer ++ chunk` to the line handler, in order, and keeps
exactly the bytes after the last newline buffered; no other state field
changes. -/
theorem c3_line_framing (st : SupState) (chunk : List Char) :
    ∃ raws : List (List Char),
      st.readBuffer ++ chunk =
        (raws.map (fun r => r ++ ['\n'])).flatten ++ (onStdoutData st chunk).1.readBuffer ∧
      (∀ r ∈ raws, '\n' ∉ r) ∧
      '\n' ∉ (onStdoutData st chunk).1.readBuffer ∧
      (onStdoutData st chunk).2 = (raws.map trimChars).filter (fun l => !l.isEmpty) ∧
      (onStdoutData st chunk).1 =
        { st with readBuffer := (onStdoutData st chunk).1.readBuffer } := by
  obtain ⟨raws, hjoin, hnl, htail, hlines⟩ := pumpBuffer_spec (st.readBuffer ++ chunk)
  exact ⟨raws, by simpa [onStdoutData] using hjoin, hnl,
    by simpa [onStdoutData] using htail, by simpa [onStdoutData] using hlines,
    by simp [onStdoutData]⟩

/-! ### C10: caller-controlled id in the call envelope -/

/-- C10: because `params` is spread last into `{id, type: command,
...params}`, a caller-supplied `"id"` key overwrites the generated field in
the written envelope while the pending entry stays keyed by the generated
`req-N` id; a response echoing the written id then never matches the
pending entry, and the call can only end in its timeout rejection.  The
public `/pi-api/rpc` handler forwards arbitrary caller-supplied `params`
records verbatim, so this is reachable from the HTTP surface. -/
theorem c10_params_id_overwrite (st : SupState) (command : String)
    (params : List (String × Json)) (otherId : String)
    (hmem : ("id", Json.str otherId) ∈ params)
    (hnd : (params.map Prod.fst).Nodup)
    (hne : otherId ≠ "req-" ++ Nat.repr st.requestCounter) :
    (∃ fields, buildCallPayload ("req-" ++ Nat.repr st.requestCounter) command params =
        .obj fields ∧ mapGet fields "id" = some (.str otherId)) ∧
    (callStep st command params).2.2 =
      [.write (buildCallPayload ("req-" ++ Nat.repr st.requestCounter) command params)] ∧
    mapGet (callStep st command params).1.pending ("req-" ++ Nat.repr st.requestCounter) =
      some { id := "req-" ++ Nat.repr st.requestCounter, command := command } ∧
    (∀ fields2, strField fields2 "id" = otherId →
      mapGet (handleResponseMessage (callStep st command params).1 fields2).1.pending
          ("req-" ++ Nat.repr st.requestCounter) =
        some { id := "req-" ++ Nat.repr st.requestCounter, command := command }) ∧
    (∀ (st2 : SupState) (timeoutMs : Nat),
      (onCallTimeout st2 ("req-" ++ Nat.repr st.requestCounter) command timeoutMs).2 =
        [.reject ("req-" ++ Nat.repr st.requestCounter)
          ("Pi command \"" ++ command ++ "\" timed out after "
            ++ Nat.repr timeoutMs ++ "ms")]) ∧
    (∀ (bodyFields : List (String × Json)) (methodStr : String),
      mapGet bodyFields "method" = some (.str methodStr) →
      jsTrim methodStr ≠ "" →
      mapGet bodyFields "params" = some (.obj params) →
      piApiRpcRequest (.obj bodyFields) = some (jsTrim methodStr, params)) := by
  have hpend : mapGet (callStep st command params).1.pending
      ("req-" ++ Nat.repr st.requestCounter) =
      some { id := "req-" ++ Nat.repr st.requestCounter, command := command } := by
    simp only [callStep]
    exact mapGet_mapSet_self st.pending _ _
  refine ⟨⟨_, rfl, ?_⟩, rfl, hpend, fun fields2 hf => ?_, fun st2 timeoutMs => rfl,
    fun bodyFields methodStr hm hmne hp => ?_⟩
  · exact mapGet_foldl_mapSet_of_mem params _ hmem hnd
  · simp only [handleResponseMessage, hf]
    by_cases hempty : otherId = ""
    · rw [if_pos hempty]
      exact hpend
    · rw [if_neg hempty]
      cases hget : mapGet (callStep st command params).1.pending otherId with
      | none => exact hpend
      | some p =>
        cases hsucc : mapGet fields2 "success" with
        | none =>
          simp only [hsucc]
          simp only [callStep] at hpend ⊢
          rw [mapGet_mapDelete_of_ne _ hne]
          exact hpend
        | some v =>
          cases v with
          | bool b =>
            cases b with
            | false =>
              simp only [hsucc]
              simp only [callStep] at hpend ⊢
              rw [mapGet_mapDelete_of_ne _ hne]
              exact hpend
            | true =>
              simp only [hsucc]
              simp only [callStep] at hpend ⊢
              rw [mapGet_mapDelete_of_ne _ hne]
              exact hpend
          | null =>
            simp only [hsucc]
            simp only [callStep] at hpend ⊢
            rw [mapGet_mapDelete_of_ne _ hne]
            exact hpend
          | num n =>
            simp only [hsucc]
            simp only [callStep] at hpend ⊢
            rw [mapGet_mapDelete_of_ne _ hne]
            exact hpend
          | str s =>
            simp only [hsucc]
            simp only [callStep] at hpend ⊢
            rw [mapGet_mapDelete_of_ne _ hne]
            exact hpend
          | arr elems =>
            simp only [hsucc]
            simp only [callStep] at hpend ⊢
            rw [mapGet_mapDelete_of_ne _ hne]
            exact hpend
          | obj fs =>
            simp only [hsucc]
            simp only [callStep] at hpend ⊢
            rw [mapGet_mapDelete_of_ne _ hne]
            exact hpend
  · simp only [piApiRpcRequest, asRecord, hm, hp, if_neg hmne]
    rfl

/-- Witness for C10: a `params` record carrying its own `"id"` hijacks the
envelope id while the pending map stays keyed by `req-1`. -/
theorem c10_params_id_overwrite_witness :
    (∃ fields, buildCallPayload "req-1" "prompt"
        [("message", Json.str "hi"), ("id", Json.str "req-9")] = .obj fields ∧
      mapGet fields "id" = some (.str "req-9")) ∧
    mapGet (callStep
        { process := some 42, readBuffer := [], pending := [],
          requestCounter := 1, restartTimer := none, disposed := false,
          startInFlight := false, restartCount := 1, startedAt := some 0,
          lastEventAt := none, lastError := none, status := .running }
        "prompt" [("message", Json.str "hi"), ("id", Json.str "req-9")]).1.pending
        "req-1" = some { id := "req-1", command := "prompt" } := by
  have h := c10_params_id_overwrite
    { process := some 42, readBuffer := [], pending := [],
      requestCounter := 1, restartTimer := none, disposed := false,
      startInFlight := false, restartCount := 1, startedAt := some 0,
      lastEventAt := none, lastError := none, status := .running }
    "prompt" [("message", Json.str "hi"), ("id", Json.str "req-9")] "req-9"
    (List.Mem.tail _ (List.Mem.head _)) (by decide) (by decide)
  exact ⟨h.1, h.2.2.1⟩

/-! ### C6: tryPair check order -/

/-- C6: `tryPair` applies its checks in a fixed order: `pairing_disabled`
whenever pairing is not required (regardless of lockout or code state),
then `locked` with the remaining seconds while the client's lockout is
active, then `already_paired` when no code is pending; the trimmed
candidate is compared to the pending code by exact case-sensitive string
equality, and on match the client's failure record is cleared, the hash of
the freshly generated bearer token is stored, the pairing code is cleared
and the plaintext token is returned; a cleared code is never regenerated by
`tryPair`. -/
theorem c6_try_pair_order (st : GuardState) (inputCode clientKey : String) (nowMs : Int)
    (freshToken : String) (hashFn : String → String) :
    (st.requirePairing = false →
      tryPair st inputCode clientKey nowMs freshToken hashFn =
        (st, .fail .pairing_disabled none)) ∧
    (st.requirePairing = true →
      0 < getLockoutRemainingSeconds st.attempts (normalizeClientKey clientKey) nowMs →
      tryPair st inputCode clientKey nowMs freshToken hashFn =
        (st, .fail .locked
          (some (getLockoutRemainingSeconds st.attempts (normalizeClientKey clientKey)
            nowMs)))) ∧
    (st.requirePairing = true →
      getLockoutRemainingSeconds st.attempts (normalizeClientKey clientKey) nowMs = 0 →
      st.pairingCode = none →
      tryPair st inputCode clientKey nowMs freshToken hashFn =
        (st, .fail .already_paired none)) ∧
    (∀ code, st.requirePairing = true →
      getLockoutRemainingSeconds st.attempts (normalizeClientKey clientKey) nowMs = 0 →
      st.pairingCode = some code →
      jsTrim inputCode = code →
      tryPair st inputCode clientKey nowMs freshToken hashFn =
        ({ st with
            attempts := mapDelete st.attempts (normalizeClientKey clientKey)
            tokenHashes := setAdd st.tokenHashes (hashFn freshToken)
            pairingCode := none },
         .ok freshToken)) ∧
    (∀ code, st.requirePairing = true →
      getLockoutRemainingSeconds st.attempts (normalizeClientKey clientKey) nowMs = 0 →
      st.pairingCode = some code →
      jsTrim inputCode ≠ code →
      ∀ token, (tryPair st inputCode clientKey nowMs freshToken hashFn).2 ≠ .ok token) ∧
    (st.pairingCode = none →
      (tryPair st inputCode clientKey nowMs freshToken hashFn).1.pairingCode = none) := by
  refine ⟨fun hreq => ?_, fun hreq hlock => ?_, fun hreq hlock hcode => ?_,
    fun code hreq hlock hcode heq => ?_, fun code hreq hlock hcode hne token => ?_,
    fun hcode => ?_⟩
  · simp [tryPair, hreq]
  · simp [tryPair, hreq, hlock]
  · simp [tryPair, hreq, hlock, hcode]
  · simp [tryPair, hreq, hlock, hcode, heq]
  · by_cases hretry : 0 < getLockoutRemainingSeconds
        (markFailedAttempt st.attempts (normalizeClientKey clientKey) nowMs)
        (normalizeClientKey clientKey) nowMs
    · simp [tryPair, hreq, hlock, hcode, hne, hretry]
    · simp [tryPair, hreq, hlock, hcode, hne, hretry]
  · by_cases hreq : st.requirePairing = false
    · simp [tryPair, hreq, hcode]
    · have hreq2 : st.requirePairing = true := by
        cases h : st.requirePairing
        · exact absurd h hreq
        · rfl
      by_cases hlock : 0 < getLockoutRemainingSeconds st.attempts
          (normalizeClientKey clientKey) nowMs
      · simp [tryPair, hreq2, hlock, hcode]
      · simp [tryPair, hreq2, hlock, hcode]

/-- Witness for C6: a successful pairing on a fresh required guard. -/
theorem c6_try_pair_order_witness :
    tryPair
        { requirePairing := true, pairingCode := some "123456", tokenHashes := [],
          attempts := [] }
        "123456" "client-a" 0 "tok" (fun s => String.append "h:" s) =
      ({ requirePairing := true, pairingCode := none, tokenHashes := ["h:tok"],
         attempts := [] },
       .ok "tok") := by
  have h := (c6_try_pair_order
    { requirePairing := true, pairingCode := some "123456", tokenHashes := [],
      attempts := [] }
    "123456" "client-a" 0 "tok" (fun s => String.append "h:" s)).2.2.2.1
    "123456" rfl rfl rfl (by decide)
  simpa using h

/-! ### C7: failure counting and lockout -/

theorem mapGet_eq_none_of_not_mem_keys {α : Type} {m : List (String × α)} {k : String}
    (h : k ∉ m.map Prod.fst) : mapGet m k = none := by
  induction m with
  | nil => rfl
  | cons p rest ih =>
    simp only [List.map_cons, List.mem_cons, not_or] at h
    simp only [mapGet, if_neg (fun (he : p.1 = k) => h.1 he.symm)]
    exact ih h.2

theorem mapGet_filter_of_get_none {α : Type} {P : String × α → Bool}
    {m : List (String × α)} {k : String} (hm : mapGet m k = none) :
    mapGet (m.filter P) k = none := by
  induction m with
  | nil => rfl
  | cons p rest ih =>
    simp only [mapGet] at hm
    by_cases hk : p.1 = k
    · rw [if_pos hk] at hm
      exact absurd hm (by simp)
    · rw [if_neg hk] at hm
      simp only [List.filter_cons]
      split
      · simp only [mapGet, if_neg hk]
        exact ih hm
      · exact ih hm

theorem mapGet_filter_of_pred {α : Type} {P : String × α → Bool}
    {m : List (String × α)} {k : String} {v : α}
    (hm : mapGet m k = some v) (hv : P (k, v) = true) :
    mapGet (m.filter P) k = some v := by
  induction m with
  | nil => simp [mapGet] at hm
  | cons p rest ih =>
    obtain ⟨k1, v1⟩ := p
    simp only [mapGet] at hm
    by_cases hk : k1 = k
    · subst hk
      rw [if_pos rfl] at hm
      simp only [Option.some.injEq] at hm
      subst hm
      simp [List.filter_cons, hv, mapGet]
    · rw [if_neg hk] at hm
      simp only [List.filter_cons]
      split
      · simp only [mapGet, if_neg hk]
        exact ih hm
      · exact ih hm

theorem mapGet_filter_none_of_pred_false {α : Type} {P : String × α → Bool}
    {m : List (String × α)} {k : String} {v : α}
    (hnd : (m.map Prod.fst).Nodup) (hm : mapGet m k = some v) (hv : P (k, v) = false) :
    mapGet (m.filter P) k = none := by
  induction m with
  | nil => simp [mapGet] at hm
  | cons p rest ih =>
    obtain ⟨k1, v1⟩ := p
    simp only [List.map_cons, List.nodup_cons] at hnd
    simp only [mapGet] at hm
    by_cases hk : k1 = k
    · subst hk
      rw [if_pos rfl] at hm
      simp only [Option.some.injEq] at hm
      subst hm
      rw [List.filter_cons, if_neg (by simp [hv])]
      exact mapGet_filter_of_get_none (mapGet_eq_none_of_not_mem_keys hnd.1)
    · rw [if_neg hk] at hm
      simp only [List.filter_cons]
      split
      · simp only [mapGet, if_neg hk]
        exact ih hnd.2 hm
      · exact ih hnd.2 hm

/-- The filter predicate of `clearExpiredAttempts` keeps a record exactly
when it is not an expired lockout. -/
theorem clearExpiredAttempts_eq_filter (attempts : List (String × AttemptState))
    (nowMs : Int) (hlen : attempts.length ≤ MAX_TRACKED_CLIENTS) :
    clearExpiredAttempts attempts nowMs =
      attempts.filter (fun p =>
        match p.2.lockedAtMs with
        | none => true
        | some lockedAt => decide (nowMs - lockedAt < (LOCKOUT_SECONDS : Int) * 1000)) := by
  unfold clearExpiredAttempts
  rw [if_pos (le_trans (List.length_filter_le _ _) hlen)]

theorem markFailedAttempt_get_not_locked {attempts : List (String × AttemptState)}
    {k : String} (nowMs : Int) {c : Nat}
    (hrec : mapGet attempts k = some { count := c, lockedAtMs := none })
    (hlen : attempts.length ≤ MAX_TRACKED_CLIENTS) :
    mapGet (markFailedAttempt attempts k nowMs) k =
      some (if MAX_PAIR_ATTEMPTS ≤ c + 1 then { count := c + 1, lockedAtMs := some nowMs }
        else ({ count := c + 1, lockedAtMs := none } : AttemptState)) := by
  have hcl : mapGet (clearExpiredAttempts attempts nowMs) k =
      some { count := c, lockedAtMs := none } := by
    rw [clearExpiredAttempts_eq_filter attempts nowMs hlen]
    exact mapGet_filter_of_pred hrec rfl
  simp only [markFailedAttempt, hcl, Option.getD_some]
  split
  · rw [mapGet_mapSet_self]
  · rw [mapGet_mapSet_self]

theorem markFailedAttempt_get_absent {attempts : List (String × AttemptState)}
    {k : String} (nowMs : Int)
    (hrec : mapGet attempts k = none)
    (hlen : attempts.length ≤ MAX_TRACKED_CLIENTS) :
    mapGet (markFailedAttempt attempts k nowMs) k =
      some { count := 1, lockedAtMs := none } := by
  have hcl : mapGet (clearExpiredAttempts attempts nowMs) k = none := by
    rw [clearExpiredAttempts_eq_filter attempts nowMs hlen]
    exact mapGet_filter_of_get_none hrec
  simp only [markFailedAttempt, hcl, Option.getD_none]
  rw [if_neg (by decide), mapGet_mapSet_self]

theorem markFailedAttempt_get_expired {attempts : List (String × AttemptState)}
    {k : String} (nowMs : Int) {t0 : Int} {c : Nat}
    (hnd : (attempts.map Prod.fst).Nodup)
    (hrec : mapGet attempts k = some { count := c, lockedAtMs := some t0 })
    (hexp : (LOCKOUT_SECONDS : Int) * 1000 ≤ nowMs - t0)
    (hlen : attempts.length ≤ MAX_TRACKED_CLIENTS) :
    mapGet (markFailedAttempt attempts k nowMs) k =
      some { count := 1, lockedAtMs := none } := by
  have hcl : mapGet (clearExpiredAttempts attempts nowMs) k = none := by
    rw [clearExpiredAttempts_eq_filter attempts nowMs hlen]
    exact mapGet_filter_none_of_pred_false hnd hrec
      (by simp only [decide_eq_false_iff_not, not_lt]; exact hexp)
  simp only [markFailedAttempt, hcl, Option.getD_none]
  rw [if_neg (by decide), mapGet_mapSet_self]

theorem getLockout_of_unlocked {attempts : List (String × AttemptState)}
    {k : String} (nowMs : Int) {c : Nat}
    (hrec : mapGet attempts k = some { count := c, lockedAtMs := none }) :
    getLockoutRemainingSeconds attempts k nowMs = 0 := by
  simp [getLockoutRemainingSeconds, hrec]

theorem getLockout_of_absent {attempts : List (String × AttemptState)}
    {k : String} (nowMs : Int) (hrec : mapGet attempts k = none) :
    getLockoutRemainingSeconds attempts k nowMs = 0 := by
  simp [getLockoutRemainingSeconds, hrec]

theorem getLockout_of_locked {attempts : List (String × AttemptState)}
    {k : String} {nowMs t0 : Int} {c : Nat}
    (hrec : mapGet attempts k = some { count := c, lockedAtMs := some t0 }) :
    getLockoutRemainingSeconds attempts k nowMs =
      (if 0 < (LOCKOUT_SECONDS : Int) * 1000 - (nowMs - t0) then
        (((LOCKOUT_SECONDS : Int) * 1000 - (nowMs - t0)).toNat + 999) / 1000
      else 0) := by
  simp [getLockoutRemainingSeconds, hrec]

/-- C7: below the threshold of 5, each wrong-code attempt increments the
client's failure counter and fails with `invalid_code`; the 5th failure
records a lockout at the current time and fails with `locked` and a
retry-after of the full 300-second window; while the window is active every
attempt fails with `locked` and a positive remaining time without touching
the state; once 300 seconds have elapsed the next wrong attempt counts from
zero again (counter 1, no lockout). -/
theorem c7_lockout_progression (st : GuardState) (inputCode clientKey : String)
    (nowMs : Int) (freshToken : String) (hashFn : String → String) (code : String)
    (hreq : st.requirePairing = true)
    (hcode : st.pairingCode = some code)
    (hmiss : jsTrim inputCode ≠ code)
    (hnd : (st.attempts.map Prod.fst).Nodup)
    (hlen : st.attempts.length ≤ MAX_TRACKED_CLIENTS) :
    (∀ c, mapGet st.attempts (normalizeClientKey clientKey) =
        some { count := c, lockedAtMs := none } → c + 1 < MAX_PAIR_ATTEMPTS →
      (tryPair st inputCode clientKey nowMs freshToken hashFn).2 =
        .fail .invalid_code none ∧
      mapGet (tryPair st inputCode clientKey nowMs freshToken hashFn).1.attempts
          (normalizeClientKey clientKey) =
        some { count := c + 1, lockedAtMs := none }) ∧
    (mapGet st.attempts (normalizeClientKey clientKey) = none →
      (tryPair st inputCode clientKey nowMs freshToken hashFn).2 =
        .fail .invalid_code none ∧
      mapGet (tryPair st inputCode clientKey nowMs freshToken hashFn).1.attempts
          (normalizeClientKey clientKey) =
        some { count := 1, lockedAtMs := none }) ∧
    (mapGet st.attempts (normalizeClientKey clientKey) =
        some { count := MAX_PAIR_ATTEMPTS - 1, lockedAtMs := none } →
      (tryPair st inputCode clientKey nowMs freshToken hashFn).2 =
        .fail .locked (some LOCKOUT_SECONDS) ∧
      mapGet (tryPair st inputCode clientKey nowMs freshToken hashFn).1.attempts
          (normalizeClientKey clientKey) =
        some { count := MAX_PAIR_ATTEMPTS, lockedAtMs := some nowMs }) ∧
    (∀ c t0, mapGet st.attempts (normalizeClientKey clientKey) =
        some { count := c, lockedAtMs := some t0 } →
      nowMs - t0 < (LOCKOUT_SECONDS : Int) * 1000 →
      ∃ r, tryPair st inputCode clientKey nowMs freshToken hashFn =
          (st, .fail .locked (some r)) ∧ 0 < r) ∧
    (∀ c t0, mapGet st.attempts (normalizeClientKey clientKey) =
        some { count := c, lockedAtMs := some t0 } →
      (LOCKOUT_SECONDS : Int) * 1000 ≤ nowMs - t0 →
      (tryPair st inputCode clientKey nowMs freshToken hashFn).2 =
        .fail .invalid_code none ∧
      mapGet (tryPair st inputCode clientKey nowMs freshToken hashFn).1.attempts
          (normalizeClientKey clientKey) =
        some { count := 1, lockedAtMs := none }) := by
  refine ⟨fun c hrec hlt => ?_, fun hrec => ?_, fun hrec => ?_,
    fun c t0 hrec hact => ?_, fun c t0 hrec hexp => ?_⟩
  · have hlock := getLockout_of_unlocked nowMs hrec
    have hmark := markFailedAttempt_get_not_locked nowMs hrec hlen
    rw [if_neg (by omega)] at hmark
    have hretry : getLockoutRemainingSeconds
        (markFailedAttempt st.attempts (normalizeClientKey clientKey) nowMs)
        (normalizeClientKey clientKey) nowMs = 0 := getLockout_of_unlocked nowMs hmark
    constructor
    · simp [tryPair, hreq, hlock, hcode, hmiss, hretry]
    · simp [tryPair, hreq, hlock, hcode, hmiss, hretry, hmark]
  · have hlock := getLockout_of_absent nowMs hrec
    have hmark := markFailedAttempt_get_absent nowMs hrec hlen
    have hretry : getLockoutRemainingSeconds
        (markFailedAttempt st.attempts (normalizeClientKey clientKey) nowMs)
        (normalizeClientKey clientKey) nowMs = 0 := getLockout_of_unlocked nowMs hmark
    constructor
    · simp [tryPair, hreq, hlock, hcode, hmiss, hretry]
    · simp [tryPair, hreq, hlock, hcode, hmiss, hretry, hmark]
  · have hlock := getLockout_of_unlocked nowMs hrec
    have hmark := markFailedAttempt_get_not_locked nowMs hrec hlen
    rw [if_pos (by decide)] at hmark
    have h59 : MAX_PAIR_ATTEMPTS - 1 + 1 = MAX_PAIR_ATTEMPTS := by decide
    rw [h59] at hmark
    have hretry : getLockoutRemainingSeconds
        (markFailedAttempt st.attempts (normalizeClientKey clientKey) nowMs)
        (normalizeClientKey clientKey) nowMs = LOCKOUT_SECONDS := by
      rw [getLockout_of_locked hmark]
      simp only [LOCKOUT_SECONDS]
      rw [if_pos (by omega)]
      omega
    constructor
    · simp [tryPair, hreq, hlock, hcode, hmiss, hretry, LOCKOUT_SECONDS]
    · simp [tryPair, hreq, hlock, hcode, hmiss, hretry, hmark, LOCKOUT_SECONDS]
  · have hrem : 0 < (LOCKOUT_SECONDS : Int) * 1000 - (nowMs - t0) := by omega
    have hlock : getLockoutRemainingSeconds st.attempts (normalizeClientKey clientKey)
        nowMs = (((LOCKOUT_SECONDS : Int) * 1000 - (nowMs - t0)).toNat + 999) / 1000 := by
      rw [getLockout_of_locked hrec, if_pos hrem]
    have hpos : 0 < (((LOCKOUT_SECONDS : Int) * 1000 - (nowMs - t0)).toNat + 999) / 1000 := by
      have : 1 ≤ ((LOCKOUT_SECONDS : Int) * 1000 - (nowMs - t0)).toNat := by omega
      omega
    refine ⟨(((LOCKOUT_SECONDS : Int) * 1000 - (nowMs - t0)).toNat + 999) / 1000,
      ?_, hpos⟩
    simp [tryPair, hreq, hlock, hpos]
  · have hlock : getLockoutRemainingSeconds st.attempts (normalizeClientKey clientKey)
        nowMs = 0 := by
      rw [getLockout_of_locked hrec, if_neg (by omega)]
    have hmark := markFailedAttempt_get_expired nowMs hnd hrec hexp hlen
    have hretry : getLockoutRemainingSeconds
        (markFailedAttempt st.attempts (normalizeClientKey clientKey) nowMs)
        (normalizeClientKey clientKey) nowMs = 0 := getLockout_of_unlocked nowMs hmark
    constructor
    · simp [tryPair, hreq, hlock, hcode, hmiss, hretry]
    · simp [tryPair, hreq, hlock, hcode, hmiss, hretry, hmark]

/-- Witness for C7: on one client, the 5th consecutive wrong attempt locks
for 300 seconds; an attempt 10 seconds later is still locked; an attempt
exactly 300 seconds later counts from zero again. -/
theorem c7_lockout_progression_witness :
    ((tryPair
        { requirePairing := true, pairingCode := some "123456", tokenHashes := [],
          attempts := [("client-a", { count := 4, lockedAtMs := none })] }
        "000000" "client-a" 1000 "tok" (fun s => s)).2 =
      .fail .locked (some 300)) ∧
    (∃ r, tryPair
        { requirePairing := true, pairingCode := some "123456", tokenHashes := [],
          attempts := [("client-a", { count := 5, lockedAtMs := some 1000 })] }
        "000000" "client-a" 11000 "tok" (fun s => s) =
      ({ requirePairing := true, pairingCode := some "123456", tokenHashes := [],
         attempts := [("client-a", { count := 5, lockedAtMs := some 1000 })] },
       .fail .locked (some r)) ∧ 0 < r) ∧
    ((tryPair
        { requirePairing := true, pairingCode := some "123456", tokenHashes := [],
          attempts := [("client-a", { count := 5, lockedAtMs := some 1000 })] }
        "000000" "client-a" 301000 "tok" (fun s => s)).2 =
      .fail .invalid_code none) := by
  refine ⟨?_, ?_, ?_⟩
  · exact ((c7_lockout_progression
      { requirePairing := true, pairingCode := some "123456", tokenHashes := [],
        attempts := [("client-a", { count := 4, lockedAtMs := none })] }
      "000000" "client-a" 1000 "tok" (fun s => s)
      "123456" rfl rfl (by decide) (by decide) (by decide)).2.2.1 (by decide)).1
  · exact (c7_lockout_progression
      { requirePairing := true, pairingCode := some "123456", tokenHashes := [],
        attempts := [("client-a", { count := 5, lockedAtMs := some 1000 })] }
      "000000" "client-a" 11000 "tok" (fun s => s)
      "123456" rfl rfl (by decide) (by decide) (by decide)).2.2.2.1 5 1000 rfl (by decide)
  · exact ((c7_lockout_progression
      { requirePairing := true, pairingCode := some "123456", tokenHashes := [],
        attempts := [("client-a", { count := 5, lockedAtMs := some 1000 })] }
      "000000" "client-a" 301000 "tok" (fun s => s)
      "123456" rfl rfl (by decide) (by decide) (by decide)).2.2.2.2 5 1000 rfl
      (by decide)).1

/-! ### C8: pairing-code invariant -/

/-- The claimed invariant: a pairing code exists exactly when pairing is
required and the token set is empty. -/
def pairingInvariant (st : GuardState) : Prop :=
  st.pairingCode.isSome = true ↔ (st.requirePairing = true ∧ st.tokenHashes = [])

/-- Single-instance consistency of the persisted store: every non-empty
stored entry normalizes to a hash this guard already holds (the guard is
the only writer of its store file). -/
def storedConsistent (hashFn : String → String) (st : GuardState) :
    Option (List String) → Prop
  | none => True
  | some entries =>
    ∀ t ∈ entries, t.length ≠ 0 → normalizeStoredToken hashFn t ∈ st.tokenHashes

/-- The state reached after a successful pairing (used for "every subsequent
`tryPair` fails with `already_paired`"). -/
def afterPaired (st : GuardState) : Prop :=
  st.requirePairing = true ∧ st.pairingCode = none ∧ st.attempts = [] ∧
    st.tokenHashes ≠ []

theorem setHas_iff_mem (s : List String) (x : String) : setHas s x = true ↔ x ∈ s := by
  induction s with
  | nil => simp [setHas]
  | cons y rest ih =>
    simp only [setHas]
    by_cases hy : y = x
    · simp [hy]
    · rw [if_neg hy, ih]
      simp [List.mem_cons]
      intro he
      exact absurd he.symm hy

theorem setAdd_of_mem {s : List String} {x : String} (h : x ∈ s) : setAdd s x = s := by
  unfold setAdd
  rw [if_pos ((setHas_iff_mem s x).mpr h)]

theorem setAdd_ne_nil (s : List String) (x : String) : setAdd s x ≠ [] := by
  unfold setAdd
  split
  · rename_i h
    cases s with
    | nil => simp [setHas] at h
    | cons y rest => simp
  · simp

theorem reload_tokens_of_consistent (hashFn : String → String) (entries : List String)
    (acc : List String)
    (hcons : ∀ t ∈ entries, t.length ≠ 0 → normalizeStoredToken hashFn t ∈ acc) :
    entries.foldl
      (fun acc token =>
        if token.length = 0 then acc else setAdd acc (normalizeStoredToken hashFn token))
      acc = acc := by
  induction entries with
  | nil => rfl
  | cons t rest ih =>
    simp only [List.foldl_cons]
    by_cases ht : t.length = 0
    · rw [if_pos ht]
      exact ih (fun u hu hl => hcons u (List.mem_cons_of_mem _ hu) hl)
    · rw [if_neg ht, setAdd_of_mem (hcons t (List.mem_cons_self _ _) ht)]
      exact ih (fun u hu hl => hcons u (List.mem_cons_of_mem _ hu) hl)

theorem reloadStep_tokens (st : GuardState) (stored : Option (List String))
    (hashFn : String → String) (rand : Nat)
    (hcons : storedConsistent hashFn st stored) :
    (reloadStep st stored hashFn rand).tokenHashes = st.tokenHashes := by
  cases stored with
  | none => rfl
  | some entries =>
    simp only [reloadStep]
    exact reload_tokens_of_consistent hashFn entries st.tokenHashes hcons

theorem digitChar_isDigit {m : Nat} (h : m < 10) : (Nat.digitChar m).isDigit = true := by
  interval_cases m <;> decide

theorem toDigitsCore_digits (f : Nat) :
    ∀ (n : Nat) (l : List Char), (∀ c ∈ l, c.isDigit = true) →
    ∀ c ∈ Nat.toDigitsCore 10 f n l, c.isDigit = true := by
  induction f with
  | zero =>
    intro n l hl
    simpa [Nat.toDigitsCore] using hl
  | succ f ih =>
    intro n l hl
    simp only [Nat.toDigitsCore]
    split
    · intro c hc
      rcases List.mem_cons.mp hc with rfl | hc2
      · exact digitChar_isDigit (Nat.mod_lt _ (by norm_num))
      · exact hl c hc2
    · exact ih (n / 10) _ (fun c hc => by
        rcases List.mem_cons.mp hc with rfl | hc2
        · exact digitChar_isDigit (Nat.mod_lt _ (by norm_num))
        · exact hl c hc2)

theorem repr_data_digits (n : Nat) : ∀ c ∈ (Nat.repr n).data, c.isDigit = true := by
  intro c hc
  have : (Nat.repr n).data = Nat.toDigitsCore 10 (n + 1) n [] := rfl
  rw [this] at hc
  exact toDigitsCore_digits (n + 1) n [] (by simp) c hc

theorem generatePairingCode_length (rand : Nat) : (generatePairingCode rand).length = 6 := by
  have hlt : rand % PAIRING_CODE_UPPER_BOUND < 10 ^ 6 := by
    have h2 := Nat.mod_lt rand (show 0 < PAIRING_CODE_UPPER_BOUND by decide)
    exact lt_of_lt_of_le h2 (by norm_num [PAIRING_CODE_UPPER_BOUND])
  have hlen : (Nat.repr (rand % PAIRING_CODE_UPPER_BOUND)).length ≤ 6 :=
    Nat.repr_length _ 6 (by norm_num) hlt
  have hdata : (Nat.repr (rand % PAIRING_CODE_UPPER_BOUND)).data.length =
      (Nat.repr (rand % PAIRING_CODE_UPPER_BOUND)).length := rfl
  show (List.replicate (6 - (Nat.repr (rand % PAIRING_CODE_UPPER_BOUND)).length) '0' ++
      (Nat.repr (rand % PAIRING_CODE_UPPER_BOUND)).data).length = 6
  rw [List.length_append, List.length_replicate, hdata]
  omega

theorem generatePairingCode_digits (rand : Nat) :
    ∀ c ∈ (generatePairingCode rand).data, c.isDigit = true := by
  intro c hc
  have hc2 : c ∈ List.replicate
      (6 - (Nat.repr (rand % PAIRING_CODE_UPPER_BOUND)).length) '0' ++
      (Nat.repr (rand % PAIRING_CODE_UPPER_BOUND)).data := hc
  rcases List.mem_append.mp hc2 with hr | hd
  · rw [List.eq_of_mem_replicate hr]
    decide
  · exact repr_data_digits _ c hd

theorem tryPair_fst_cases (st : GuardState) (inputCode clientKey : String) (nowMs : Int)
    (freshToken : String) (hashFn : String → String) :
    (tryPair st inputCode clientKey nowMs freshToken hashFn).1 = st ∨
    (∃ attempts2, (tryPair st inputCode clientKey nowMs freshToken hashFn).1 =
      { st with attempts := attempts2 }) ∨
    (tryPair st inputCode clientKey nowMs freshToken hashFn).1 =
      { st with attempts := mapDelete st.attempts (normalizeClientKey clientKey)
                tokenHashes := setAdd st.tokenHashes (hashFn freshToken)
                pairingCode := none } := by
  unfold tryPair
  dsimp only
  repeat' split
  all_goals first
    | (left; rfl)
    | (right; left; exact ⟨_, rfl⟩)
    | (right; right; rfl)

theorem reloadStep_eq (st : GuardState) (stored : Option (List String))
    (hashFn : String → String) (rand : Nat) :
    ∃ toks, reloadStep st stored hashFn rand =
      { st with
          tokenHashes := toks
          pairingCode :=
            if st.requirePairing && toks.isEmpty then some (generatePairingCode rand)
            else st.pairingCode } ∧
      (storedConsistent hashFn st stored → toks = st.tokenHashes) := by
  refine ⟨_, rfl, fun hcons => ?_⟩
  cases stored with
  | none => rfl
  | some entries => exact reload_tokens_of_consistent hashFn entries st.tokenHashes hcons

/-- C8: the pairing-code invariant — a code exists iff pairing is required
and the token set is empty — is established by loading a fresh guard and
preserved by every re-load (of a self-consistent store) and by `tryPair`;
in particular a fresh guard with pairing required reports a 6-digit code
and `paired:false`, one successful `tryPair` makes `status()` report
`paired:true` with a null code, and every subsequent `tryPair` fails with
`already_paired` while leaving that state intact. -/
theorem c8_pairing_invariant (hashFn : String → String) :
    (∀ (req : Bool) (stored : Option (List String)) (rand : Nat),
      pairingInvariant (reloadStep (freshGuard req) stored hashFn rand)) ∧
    (∀ (st : GuardState) (stored : Option (List String)) (rand : Nat),
      pairingInvariant st → storedConsistent hashFn st stored →
      pairingInvariant (reloadStep st stored hashFn rand)) ∧
    (∀ (st : GuardState) (inputCode clientKey : String) (nowMs : Int)
        (freshToken : String),
      pairingInvariant st →
      pairingInvariant (tryPair st inputCode clientKey nowMs freshToken hashFn).1) ∧
    (∀ rand : Nat,
      statusView (reloadStep (freshGuard true) none hashFn rand) =
        { pairingRequired := true, paired := false,
          pairingCode := some (generatePairingCode rand) } ∧
      (generatePairingCode rand).length = 6 ∧
      (∀ c ∈ (generatePairingCode rand).data, c.isDigit = true)) ∧
    (∀ (rand : Nat) (inputCode clientKey : String) (nowMs : Int) (freshToken : String),
      jsTrim inputCode = generatePairingCode rand →
      (tryPair (reloadStep (freshGuard true) none hashFn rand) inputCode clientKey
          nowMs freshToken hashFn).2 = .ok freshToken ∧
      statusView (tryPair (reloadStep (freshGuard true) none hashFn rand) inputCode
          clientKey nowMs freshToken hashFn).1 =
        { pairingRequired := true, paired := true, pairingCode := none } ∧
      afterPaired (tryPair (reloadStep (freshGuard true) none hashFn rand) inputCode
          clientKey nowMs freshToken hashFn).1) ∧
    (∀ (st : GuardState) (inputCode clientKey : String) (nowMs : Int)
        (freshToken : String),
      afterPaired st →
      tryPair st inputCode clientKey nowMs freshToken hashFn =
        (st, .fail .already_paired none)) ∧
    (∀ (st : GuardState) (stored : Option (List String)) (rand : Nat),
      afterPaired st → storedConsistent hashFn st stored →
      afterPaired (reloadStep st stored hashFn rand)) := by
  have htry_already : ∀ (st : GuardState) (inputCode clientKey : String) (nowMs : Int)
      (freshToken : String), afterPaired st →
      tryPair st inputCode clientKey nowMs freshToken hashFn =
        (st, .fail .already_paired none) := by
    intro st inputCode clientKey nowMs freshToken hap
    obtain ⟨hreq, hcode, hatt, _⟩ := hap
    have hlock : getLockoutRemainingSeconds st.attempts (normalizeClientKey clientKey)
        nowMs = 0 := by
      rw [hatt]
      rfl
    simp [tryPair, hreq, hlock, hcode]
  refine ⟨?_, ?_, ?_, ?_, ?_, htry_already, ?_⟩
  · intro req stored rand
    obtain ⟨toks, heq, -⟩ := reloadStep_eq (freshGuard req) stored hashFn rand
    rw [heq]
    unfold pairingInvariant freshGuard
    dsimp only
    cases hb : (req && toks.isEmpty) with
    | true =>
      rw [if_pos rfl]
      rw [Bool.and_eq_true] at hb
      simp only [Option.isSome_some, true_iff]
      exact ⟨hb.1, List.isEmpty_iff.mp hb.2⟩
    | false =>
      rw [if_neg (by simp)]
      simp only [Option.isSome_none, Bool.false_eq_true, false_iff, not_and]
      intro h1 h2
      rw [h1, List.isEmpty_iff.mpr h2] at hb
      simp at hb
  · intro st stored rand hinv hcons
    obtain ⟨toks, heq, htoks⟩ := reloadStep_eq st stored hashFn rand
    rw [heq, htoks hcons]
    unfold pairingInvariant at hinv ⊢
    dsimp only
    cases hb : (st.requirePairing && st.tokenHashes.isEmpty) with
    | true =>
      rw [if_pos rfl]
      rw [Bool.and_eq_true] at hb
      simp only [Option.isSome_some, true_iff]
      exact ⟨hb.1, List.isEmpty_iff.mp hb.2⟩
    | false =>
      rw [if_neg (by simp)]
      exact hinv
  · intro st inputCode clientKey nowMs freshToken hinv
    rcases tryPair_fst_cases st inputCode clientKey nowMs freshToken hashFn with
      h | ⟨a2, h⟩ | h
    · rw [h]
      exact hinv
    · rw [h]
      unfold pairingInvariant at hinv ⊢
      exact hinv
    · rw [h]
      unfold pairingInvariant
      simp only [Option.isSome_none, Bool.false_eq_true, false_iff, not_and]
      intro _
      exact setAdd_ne_nil _ _
  · intro rand
    exact ⟨rfl, generatePairingCode_length rand, generatePairingCode_digits rand⟩
  · intro rand inputCode clientKey nowMs freshToken heq
    have hres : tryPair (reloadStep (freshGuard true) none hashFn rand) inputCode
        clientKey nowMs freshToken hashFn =
        ({ requirePairing := true, pairingCode := none,
           tokenHashes := setAdd [] (hashFn freshToken), attempts := [] },
         .ok freshToken) := by
      simp [tryPair, reloadStep, freshGuard, heq, getLockoutRemainingSeconds,
        normalizeClientKey, mapGet, mapDelete]
    refine ⟨by rw [hres], ?_, ?_⟩
    · rw [hres]
      simp [statusView, setAdd, setHas]
    · rw [hres]
      exact ⟨rfl, rfl, rfl, setAdd_ne_nil [] (hashFn freshToken)⟩
  · intro st stored rand hap hcons
    obtain ⟨hreq, hcode, hatt, htoks⟩ := hap
    obtain ⟨toks, heq, htokeq⟩ := reloadStep_eq st stored hashFn rand
    rw [heq, htokeq hcons]
    have hempty : st.tokenHashes.isEmpty = false := by
      cases hl : st.tokenHashes with
      | nil => exact absurd hl htoks
      | cons a as => rfl
    unfold afterPaired
    dsimp only
    rw [hempty, Bool.and_false]
    exact ⟨hreq, by simp [hcode], hatt, htoks⟩
/-- Witness for C8: a freshly loaded required guard reports a 6-digit code
and not paired; a subsequent `tryPair` on a paired guard fails with
`already_paired` and leaves the state unchanged. -/
theorem c8_pairing_invariant_witness :
    statusView (reloadStep (freshGuard true) none (fun s => String.append "h:" s) 123456) =
      { pairingRequired := true, paired := false,
        pairingCode := some (generatePairingCode 123456) } ∧
    (generatePairingCode 123456).length = 6 ∧
    tryPair
        { requirePairing := true, pairingCode := none, tokenHashes := ["h:tok"],
          attempts := [] }
        "000000" "client-a" 0 "tok2" (fun s => String.append "h:" s) =
      ({ requirePairing := true, pairingCode := none, tokenHashes := ["h:tok"],
         attempts := [] },
       .fail .already_paired none) :=
  ⟨((c8_pairing_invariant (fun s => String.append "h:" s)).2.2.2.1 123456).1,
   ((c8_pairing_invariant (fun s => String.append "h:" s)).2.2.2.1 123456).2.1,
   (c8_pairing_invariant (fun s => String.append "h:" s)).2.2.2.2.2.1
     { requirePairing := true, pairingCode := none, tokenHashes := ["h:tok"],
       attempts := [] }
     "000000" "client-a" 0 "tok2" ⟨rfl, rfl, rfl, by decide⟩⟩

end ZombieClaw
